import Mathlib

/-!
# Satellite Visibility Checker — verification development

Shallow embedding of `satellite_visibility.py` (James0306/satellite-visibility-checker).

The script is a single-pass batch pipeline:
Load → Normalize (`clean_time_column`) → Convert (`convert_to_altaz`) →
Filter (`find_visibility`) → Write (`write_to_file`).

Modelling choices:
* a pandas cell of the `Time (iso)` column is `Option String` (`none` = NaN);
* floats are embedded as `ℚ` — the script only compares altitudes with `≤`,
  which is exact on the float values involved, so the ordering structure is faithful;
* the astropy coordinate transform is an external collaborator: it is a parameter
  `f : Coord → String → ℚ × ℚ` giving (altitude, azimuth) in degrees for one sample;
* Python exceptions become an `Except Err` result; the error kinds follow the
  spec's taxonomy (the script itself raises `ValueError`, mapped to `invalidInput`,
  and library errors are `transformError` / `indexError`);
* numpy broadcasting of the `obstime` array against the coordinate arrays is
  modelled explicitly in `convert_to_altaz` (equal lengths, or one side of length 1).
-/

namespace SatVis

/-- Error kinds per the spec's taxonomy (§7). -/
inductive Err where
  | ioError
  | parseError
  | invalidInput
  | transformError
  | indexError
  deriving DecidableEq, Repr

/-- One row of the input table: `Time (iso)` cell (possibly NaN), and the three
GCRS coordinate columns (RA deg, Dec deg, Distance km). -/
structure Row where
  time : Option String
  ra : ℚ
  dec : ℚ
  dist : ℚ
  deriving DecidableEq, Repr

/-- The in-memory table: rows in file order. -/
def Table := List Row

/-- A coordinate triple (RA, Dec, Distance) as handed to the frame converter. -/
def Coord := ℚ × ℚ × ℚ

instance : Inhabited Coord := ⟨(0, 0, 0)⟩

/-- The `Time (iso)` column, `sat_data['Time (iso)']`, raw (uncleaned). -/
def timesOf (t : Table) : List (Option String) := t.map Row.time

/-- The coordinate columns zipped per row, as built by `SkyCoord(ra=..., dec=..., distance=...)`. -/
def coordsOf (t : Table) : List Coord := t.map fun r => (r.ra, r.dec, r.dist)

/-- Python `str.strip` on a character list: drop leading and trailing whitespace. -/
def stripChars (l : List Char) : List Char :=
  List.rdropWhile Char.isWhitespace (l.dropWhile Char.isWhitespace)

/-- Python `str.strip` on a string. -/
def strip (s : String) : String := ⟨stripChars s.data⟩

/-- Modelled from the spec: the astropy `Time(..., format='iso')` parser is an
external collaborator not present in the source; the spec (§4.2) fixes the
calendar format `YYYY-MM-DD HH:MM:SS[.fff]`. A string is valid iff it matches
that shape: date, space, time, optional dot followed by fractional digits. -/
def isoValid (s : String) : Bool :=
  match s.data with
  | y1 :: y2 :: y3 :: y4 :: '-' :: m1 :: m2 :: '-' :: d1 :: d2 :: ' ' ::
      h1 :: h2 :: ':' :: n1 :: n2 :: ':' :: s1 :: s2 :: rest =>
    ([y1, y2, y3, y4, m1, m2, d1, d2, h1, h2, n1, n2, s1, s2].all Char.isDigit) &&
    (match rest with
     | [] => true
     | '.' :: ds => !ds.isEmpty && ds.all Char.isDigit
     | _ => false)
  | _ => false

/-- The pure cleaning chain of `clean_time_column`, line 58:
`dropna()` (drop `none`), `.astype(str)` (identity on strings once NaNs are gone),
`.str.strip()`, `.replace('', np.nan).dropna()` (drop empty results). -/
def validTimes (col : List (Option String)) : List String :=
  (((col.filterMap id).map strip).filter (fun s => s ≠ ""))

/-- Function `clean_time_column`: clean the `Time (iso)` column; raise (`invalidInput`)
if nothing survives, then parse with `Time(..., format='iso')`, which raises if
any entry fails the calendar format. On success the cleaned strings stand for
the parsed observation instants, in order. -/
def clean_time_column (col : List (Option String)) : Except Err (List String) :=
  let valid := validTimes col
  if valid.isEmpty then .error .invalidInput
  else if valid.all isoValid then .ok valid
  else .error .invalidInput

/-- Function `convert_to_altaz`: build `SkyCoord` from ALL rows' coordinate columns with
`obstime=times`, transform to AltAz, and return only `altaz_coords.alt.deg`
(the azimuth is computed by the transform but not returned, line 80).
Numpy broadcasts the coordinate arrays (length n) against the obstime array
(length m): shapes are compatible iff n = m or one of them is 1; otherwise the
library raises (`transformError`). -/
def convert_to_altaz (f : Coord → String → ℚ × ℚ) (coords : List Coord)
    (times : List String) : Except Err (List ℚ) :=
  if coords.length = times.length then
    .ok ((coords.zip times).map fun p => (f p.1 p.2).1)
  else if times.length = 1 then
    .ok (coords.map fun c => (f c (times.headD "")).1)
  else if coords.length = 1 then
    .ok (times.map fun s => (f (coords.headD default) s).1)
  else .error .transformError

/-- Constant `MIN_ALTITUDE` (degrees). -/
def MIN_ALTITUDE : ℚ := 10
/-- Constant `MAX_ALTITUDE` (degrees). -/
def MAX_ALTITUDE : ℚ := 85

/-- Mask `visibility_mask = (altitudes >= MIN_ALTITUDE) & (altitudes <= MAX_ALTITUDE)`. -/
def visibility_mask (altitudes : List ℚ) : List Bool :=
  altitudes.map fun a => decide (MIN_ALTITUDE ≤ a) && decide (a ≤ MAX_ALTITUDE)

/-- Pandas boolean-mask selection `series[mask]`: keep the entries whose mask
bit is `true` (callers must supply a mask of the series' length; on mismatch
pandas raises, which `mainRun` models separately). -/
def maskSelect {α : Type} : List α → List Bool → List α
  | [], _ => []
  | _, [] => []
  | x :: xs, b :: bs => if b then x :: maskSelect xs bs else maskSelect xs bs

/-- Function `find_visibility`: mask the raw `Time (iso)` column by the altitude band. -/
def find_visibility (times : List (Option String)) (altitudes : List ℚ) :
    List (Option String) :=
  maskSelect times (visibility_mask altitudes)

/-- Rendering of one cell by `to_csv` (a NaN cell prints as the empty field). -/
def renderCell : Option String → String
  | some s => s
  | none => ""

/-- Function `write_to_file`: the lines of the output file — the `header=['Visible Times']`
row followed by one selected timestamp per line (`index=False`: no index column). -/
def write_to_file (visible_times : List (Option String)) : List String :=
  "Visible Times" :: visible_times.map renderCell

/-- Pipeline step labels, for tracing which stages a run executed. -/
inductive Step where
  | load
  | normalize
  | convert
  | filter
  | write
  deriving DecidableEq, Repr

/-- The five steps of the linear pipeline, in order. -/
def fullPipeline : List Step := [.load, .normalize, .convert, .filter, .write]

/-- Outcome of one run of `main`: the result (visible times, or the error that
aborted the run), the executed-step trace, and the output-file content
(`none` when the run aborted before writing). -/
structure RunOut where
  res : Except Err (List (Option String))
  trace : List Step
  written : Option (List String)
  deriving Repr

/-- Function `main`: Load → `clean_time_column` → `convert_to_altaz` → `find_visibility`
→ `write_to_file`, each step running only if the previous one succeeded
(a Python exception propagates and aborts the run). The loader's outcome is
the `input` argument (`.error` models a missing/unreadable/malformed file).
Pandas raises on `series[mask]` when the boolean mask length differs from the
series length (`indexError`); otherwise the selection is written out. -/
def mainRun (f : Coord → String → ℚ × ℚ) (input : Except Err Table) : RunOut :=
  match input with
  | .error e => ⟨.error e, [.load], none⟩
  | .ok t =>
    match clean_time_column (timesOf t) with
    | .error e => ⟨.error e, [.load, .normalize], none⟩
    | .ok times =>
      match convert_to_altaz f (coordsOf t) times with
      | .error e => ⟨.error e, [.load, .normalize, .convert], none⟩
      | .ok altitudes =>
        if altitudes.length = (timesOf t).length then
          let vis := find_visibility (timesOf t) altitudes
          ⟨.ok vis, fullPipeline, some (write_to_file vis)⟩
        else
          ⟨.error .indexError, [.load, .normalize, .convert, .filter], none⟩

/-- Does a raw `Time (iso)` cell survive the cleaning chain? -/
def cellSurvives : Option String → Bool
  | none => false
  | some s => !(strip s == "")

/-- Does a raw cell survive cleaning AND parse under the calendar format? -/
def cellValid : Option String → Bool
  | none => false
  | some s => (!(strip s == "")) && isoValid (strip s)

/-- Boolean success test for a pipeline result. -/
def resultOk {α : Type} : Except Err α → Bool
  | .ok _ => true
  | .error _ => false

/-- The payload of a successful pipeline result. -/
def resultValue {α : Type} : Except Err α → Option α
  | .ok a => some a
  | .error _ => none

/-! ### Lemmas about `maskSelect` (pandas boolean-mask selection) -/

theorem maskSelect_sublist {α : Type} : ∀ (xs : List α) (bs : List Bool),
    List.Sublist (maskSelect xs bs) xs
  | [], _ => by simp [maskSelect]
  | _ :: _, [] => by simp [maskSelect]
  | x :: xs, b :: bs => by
    rw [maskSelect]
    cases b
    · simp only [Bool.false_eq_true, if_false]
      exact List.Sublist.cons x (maskSelect_sublist xs bs)
    · simp only [if_true]
      exact List.Sublist.cons₂ x (maskSelect_sublist xs bs)

theorem maskSelect_map_length {α β : Type} (p : β → Bool) :
    ∀ (xs : List α) (as : List β), xs.length = as.length →
      (maskSelect xs (as.map p)).length = (as.filter p).length
  | [], [], _ => by simp [maskSelect]
  | [], _ :: _, h => by simp at h
  | _ :: _, [], h => by simp at h
  | x :: xs, a :: as, h => by
    have h' : xs.length = as.length := by simpa using h
    have ih := maskSelect_map_length p xs as h'
    rw [List.map_cons, maskSelect, List.filter_cons]
    cases p a <;> simp [ih]

theorem mem_maskSelect_self {α : Type} (p : α → Bool) :
    ∀ (as : List α), ∀ x ∈ maskSelect as (as.map p), p x = true
  | [] => by simp [maskSelect]
  | a :: as => by
    intro x hx
    rw [List.map_cons, maskSelect] at hx
    cases hp : p a
    · rw [hp] at hx
      simp only [Bool.false_eq_true, if_false] at hx
      exact mem_maskSelect_self p as x hx
    · rw [hp] at hx
      simp only [if_true, List.mem_cons] at hx
      rcases hx with rfl | hx
      · exact hp
      · exact mem_maskSelect_self p as x hx

theorem maskSelect_length_congr {α β : Type} :
    ∀ (xs : List α) (ys : List β) (bs : List Bool), xs.length = ys.length →
      (maskSelect xs bs).length = (maskSelect ys bs).length
  | [], [], _, _ => by simp [maskSelect]
  | [], _ :: _, _, h => by simp at h
  | _ :: _, [], _, h => by simp at h
  | _ :: _, _ :: _, [], _ => by simp [maskSelect]
  | x :: xs, y :: ys, b :: bs, h => by
    have h' : xs.length = ys.length := by simpa using h
    have ih := maskSelect_length_congr xs ys bs h'
    rw [maskSelect, maskSelect]
    cases b <;> simp [ih]

theorem maskSelect_all_true {α β : Type} :
    ∀ (xs : List α) (ys : List β), xs.length = ys.length →
      maskSelect xs (ys.map fun _ => true) = xs
  | [], [], _ => by simp [maskSelect]
  | [], _ :: _, h => by simp at h
  | _ :: _, [], h => by simp at h
  | x :: xs, y :: ys, h => by
    have h' : xs.length = ys.length := by simpa using h
    rw [List.map_cons, maskSelect, if_pos rfl, maskSelect_all_true xs ys h']

theorem maskSelect_all_false {α : Type} :
    ∀ (xs : List α) (bs : List Bool), (∀ b ∈ bs, b = false) →
      maskSelect xs bs = []
  | [], bs, _ => by simp [maskSelect]
  | _ :: _, [], _ => by simp [maskSelect]
  | x :: xs, b :: bs, h => by
    have hb : b = false := h b (by simp)
    rw [maskSelect, hb, if_neg (by simp)]
    exact maskSelect_all_false xs bs fun b' hb' => h b' (by simp [hb'])

/-! ### Lemmas about `strip` (Python `str.strip`) -/

theorem dropWhile_eq_self_of_append {α : Type} (p : α → Bool) :
    ∀ (l t : List α), List.dropWhile p (l ++ t) = l ++ t →
      List.dropWhile p l = l
  | [], _, _ => by simp
  | a :: l, t, h => by
    rw [List.cons_append, List.dropWhile_cons] at h
    by_cases hp : p a = true
    · exfalso
      rw [if_pos hp] at h
      have hle := congrArg List.length h
      have := (List.dropWhile_suffix (l := l ++ t) p).sublist.length_le
      simp only [List.length_cons] at hle
      omega
    · rw [List.dropWhile_cons, if_neg hp]

theorem stripChars_idem (l : List Char) :
    stripChars (stripChars l) = stripChars l := by
  unfold stripChars
  have hAfix : List.dropWhile Char.isWhitespace (List.dropWhile Char.isWhitespace l) =
      List.dropWhile Char.isWhitespace l := List.dropWhile_idempotent _ _
  have hpre : ∃ t, List.rdropWhile Char.isWhitespace (List.dropWhile Char.isWhitespace l) ++ t =
      List.dropWhile Char.isWhitespace l := List.rdropWhile_prefix _ _
  obtain ⟨t, ht⟩ := hpre
  have hBfix : List.dropWhile Char.isWhitespace
      (List.rdropWhile Char.isWhitespace (List.dropWhile Char.isWhitespace l)) =
      List.rdropWhile Char.isWhitespace (List.dropWhile Char.isWhitespace l) := by
    apply dropWhile_eq_self_of_append Char.isWhitespace _ t
    rw [ht]
    exact hAfix
  rw [hBfix, List.rdropWhile_idempotent]

theorem strip_idem (s : String) : strip (strip s) = strip s := by
  show (⟨stripChars (stripChars s.data)⟩ : String) = ⟨stripChars s.data⟩
  rw [stripChars_idem]

theorem stripChars_of_all_ws (l : List Char)
    (h : ∀ c ∈ l, Char.isWhitespace c = true) : stripChars l = [] := by
  unfold stripChars
  have : List.dropWhile Char.isWhitespace l = [] := by
    induction l with
    | nil => rfl
    | cons c cs ih =>
      rw [List.dropWhile_cons, if_pos (h c (by simp))]
      exact ih fun c' hc' => h c' (by simp [hc'])
  rw [this, List.rdropWhile_nil]

/-! ### Lemmas about `validTimes` (the cleaning chain of `clean_time_column`) -/

theorem validTimes_cons_none (cs : List (Option String)) :
    validTimes (none :: cs) = validTimes cs := by
  simp [validTimes, List.filterMap_cons]

theorem validTimes_cons_some (s : String) (cs : List (Option String)) :
    validTimes (some s :: cs)
      = if strip s = "" then validTimes cs else strip s :: validTimes cs := by
  simp only [validTimes, List.filterMap_cons, List.map_cons, List.filter_cons]
  by_cases hs : strip s = ""
  · simp [hs]
  · simp [hs]

theorem mem_validTimes (col : List (Option String)) (s : String)
    (hs : s ∈ validTimes col) : (∃ o, some o ∈ col ∧ strip o = s) ∧ s ≠ "" := by
  unfold validTimes at hs
  rw [List.mem_filter] at hs
  obtain ⟨hmem, hne⟩ := hs
  rw [List.mem_map] at hmem
  obtain ⟨o, ho, rfl⟩ := hmem
  rw [List.mem_filterMap] at ho
  obtain ⟨c, hc, hco⟩ := ho
  simp only [id] at hco
  subst hco
  exact ⟨⟨o, hc, rfl⟩, by simpa using hne⟩

theorem validTimes_length_le : ∀ (col : List (Option String)),
    (validTimes col).length ≤ col.length
  | [] => by simp [validTimes]
  | none :: cs => by
    rw [validTimes_cons_none]
    exact Nat.le_succ_of_le (validTimes_length_le cs)
  | some s :: cs => by
    rw [validTimes_cons_some]
    by_cases hs : strip s = ""
    · rw [if_pos hs]
      exact Nat.le_succ_of_le (validTimes_length_le cs)
    · rw [if_neg hs]
      simpa using validTimes_length_le cs

theorem validTimes_length_eq_iff : ∀ (col : List (Option String)),
    ((validTimes col).length = col.length ↔ col.all cellSurvives = true)
  | [] => by simp [validTimes]
  | none :: cs => by
    rw [validTimes_cons_none]
    have hle := validTimes_length_le cs
    simp only [List.all_cons, cellSurvives, List.length_cons]
    constructor
    · intro h; omega
    · intro h; simp at h
  | some s :: cs => by
    rw [validTimes_cons_some]
    have hle := validTimes_length_le cs
    have ih := validTimes_length_eq_iff cs
    by_cases hs : strip s = ""
    · rw [if_pos hs]
      simp only [List.all_cons, cellSurvives, hs, List.length_cons]
      constructor
      · intro h; omega
      · intro h; simp at h
    · rw [if_neg hs]
      simp only [List.all_cons, cellSurvives, List.length_cons]
      constructor
      · intro h
        have : (validTimes cs).length = cs.length := by omega
        simp [hs, ih.mp this]
      · intro h
        have h2 : cs.all cellSurvives = true := by
          simp only [Bool.and_eq_true] at h
          exact h.2
        have := ih.mpr h2
        omega

/-! ### Lemmas about `clean_time_column` -/

theorem clean_time_column_ok_val (col : List (Option String)) (l : List String)
    (h : clean_time_column col = .ok l) : l = validTimes col := by
  unfold clean_time_column at h
  by_cases h1 : (validTimes col).isEmpty = true
  · simp [h1] at h
  · simp only [h1, Bool.false_eq_true, if_false] at h
    by_cases h2 : (validTimes col).all isoValid = true
    · simp only [h2, if_true] at h
      exact (Except.ok.inj h).symm
    · simp [h2] at h

theorem clean_time_column_error_of_nil (col : List (Option String))
    (h : validTimes col = []) : clean_time_column col = .error .invalidInput := by
  unfold clean_time_column
  rw [h]
  rfl

theorem clean_time_column_ok_of (col : List (Option String))
    (hne : validTimes col ≠ []) (hval : (validTimes col).all isoValid = true) :
    clean_time_column col = .ok (validTimes col) := by
  unfold clean_time_column
  dsimp only
  rw [List.isEmpty_eq_false.mpr hne]
  simp [hval]

theorem clean_time_column_error_of_bad (col : List (Option String)) (s : String)
    (hmem : s ∈ validTimes col) (hbad : isoValid s = false) :
    clean_time_column col = .error .invalidInput := by
  unfold clean_time_column
  have hne : (validTimes col).isEmpty = false :=
    List.isEmpty_eq_false.mpr (List.ne_nil_of_mem hmem)
  dsimp only
  rw [hne]
  have hnall : (validTimes col).all isoValid = false := by
    rw [List.all_eq_false]
    exact ⟨s, hmem, by simp [hbad]⟩
  simp [hnall]

/-! ### Concrete sample data used by witnesses and counterexamples -/

/-- A concrete stand-in for the external transform: constant (50°, 100°). -/
def demoTransform : Coord → String → ℚ × ℚ := fun _ _ => (50, 100)

/-- The two coordinate rows of the repository's own unit-test fixture. -/
def demoCoords : List Coord :=
  [(87958/1000, -39063/1000, 7067917/1000), (87126/1000, -35471/1000, 7067734/1000)]

/-- The two timestamps of the repository's own unit-test fixture. -/
def demoTimes : List String := ["2024-09-11 00:00:00.000", "2024-09-11 00:01:00.000"]

/-- Altitudes probing both band boundaries: 9.999, 10, 50, 85, 85.001. -/
def demoAltitudes : List ℚ := [9999/1000, 10, 50, 85, 85001/1000]

/-- Five raw timestamp cells matching `demoAltitudes`. -/
def demoRawTimes : List (Option String) :=
  [some "t1", some "t2", some "t3", some "t4", some "t5"]

/-! ### Claim theorems -/

/-- C1 (amended): for parallel coordinate and instant arrays of equal
length, `convert_to_altaz` succeeds and produces exactly one altitude per
input row — the altitude component of the external transform's
(altitude, azimuth) output; the azimuth component is not part of the result. -/
theorem convert_to_altaz_one_altitude_per_row (f : Coord → String → ℚ × ℚ)
    (coords : List Coord) (times : List String)
    (h : coords.length = times.length) :
    convert_to_altaz f coords times
        = .ok ((coords.zip times).map fun p => (f p.1 p.2).1)
    ∧ ((coords.zip times).map fun p => (f p.1 p.2).1).length = coords.length := by
  constructor
  · unfold convert_to_altaz
    rw [if_pos h]
  · rw [List.length_map, List.length_zip, h, Nat.min_self]

/-- C1 witness: the amended statement at the unit-test fixture. -/
theorem convert_to_altaz_one_altitude_per_row_witness :
    convert_to_altaz demoTransform demoCoords demoTimes
        = .ok ((demoCoords.zip demoTimes).map fun p => (demoTransform p.1 p.2).1)
    ∧ ((demoCoords.zip demoTimes).map fun p => (demoTransform p.1 p.2).1).length
        = demoCoords.length :=
  convert_to_altaz_one_altitude_per_row demoTransform demoCoords demoTimes rfl

/-- C1 counterexample: the claim that `convert_to_altaz` produces the
(altitude, azimuth) pairs is false — two external transforms that agree on
altitude but differ on azimuth (100° vs 200°) give *identical* outputs, so the
azimuth is not part of the result (line 80 returns only `alt.deg`). -/
theorem convert_to_altaz_returns_no_azimuth :
    convert_to_altaz (fun _ _ => ((20 : ℚ), (100 : ℚ))) demoCoords demoTimes
        = convert_to_altaz (fun _ _ => ((20 : ℚ), (200 : ℚ))) demoCoords demoTimes
    ∧ ((fun (_ : Coord) (_ : String) => ((20 : ℚ), (100 : ℚ)))
          (demoCoords.headD default) (demoTimes.headD ""))
        ≠ ((fun (_ : Coord) (_ : String) => ((20 : ℚ), (200 : ℚ)))
          (demoCoords.headD default) (demoTimes.headD "")) := by
  constructor
  · rfl
  · intro hcontra
    have := congrArg Prod.snd hcontra
    norm_num at this

/-- C2: the filtered output size equals the count of altitudes satisfying
`10.0 <= altitude <= 85.0` (closed interval: both boundaries included). -/
theorem find_visibility_size (times : List (Option String)) (altitudes : List ℚ)
    (h : times.length = altitudes.length) :
    (find_visibility times altitudes).length
      = altitudes.countP fun a => decide ((10 : ℚ) ≤ a ∧ a ≤ (85 : ℚ)) := by
  unfold find_visibility visibility_mask
  rw [maskSelect_map_length _ times altitudes h, List.countP_eq_length_filter]
  refine congrArg List.length (List.filter_congr ?_)
  intro a _
  simp [MIN_ALTITUDE, MAX_ALTITUDE]

/-- C2 witness: on altitudes [9.999, 10, 50, 85, 85.001] exactly the three
entries 10, 50, 85 pass — both boundaries in, both near-misses out. -/
theorem find_visibility_size_witness :
    (find_visibility demoRawTimes demoAltitudes).length
        = demoAltitudes.countP (fun a => decide ((10 : ℚ) ≤ a ∧ a ≤ (85 : ℚ)))
    ∧ (find_visibility demoRawTimes demoAltitudes).length = 3 :=
  ⟨find_visibility_size demoRawTimes demoAltitudes (by decide),
    by norm_num [find_visibility, visibility_mask, maskSelect, demoRawTimes,
      demoAltitudes, MIN_ALTITUDE, MAX_ALTITUDE]⟩

/-- C3: the retained rows form an order-preserving subsequence of the input
rows (hence a subset, never reordered or duplicated), and their number equals
the count of altitudes within [MIN_ALTITUDE, MAX_ALTITUDE] inclusive. -/
theorem find_visibility_order_preserving_subset (times : List (Option String))
    (altitudes : List ℚ) (h : times.length = altitudes.length) :
    List.Sublist (find_visibility times altitudes) times
    ∧ (find_visibility times altitudes).length
        = altitudes.countP fun a => decide (MIN_ALTITUDE ≤ a ∧ a ≤ MAX_ALTITUDE) := by
  refine ⟨maskSelect_sublist _ _, ?_⟩
  unfold find_visibility visibility_mask
  rw [maskSelect_map_length _ times altitudes h, List.countP_eq_length_filter]
  refine congrArg List.length (List.filter_congr ?_)
  intro a _
  simp

/-- C3 witness: the subsequence-plus-size statement at concrete data. -/
theorem find_visibility_order_preserving_subset_witness :
    List.Sublist (find_visibility demoRawTimes demoAltitudes) demoRawTimes
    ∧ (find_visibility demoRawTimes demoAltitudes).length
        = demoAltitudes.countP (fun a => decide (MIN_ALTITUDE ≤ a ∧ a ≤ MAX_ALTITUDE)) :=
  find_visibility_order_preserving_subset demoRawTimes demoAltitudes (by decide)

/-- C4: the visibility filter is idempotent — applying `find_visibility`
with the same bounds to the already-filtered timestamps paired with their own
(altitude-consistent) filtered altitudes returns the same selection. -/
theorem find_visibility_idempotent (times : List (Option String))
    (altitudes : List ℚ) (h : times.length = altitudes.length) :
    find_visibility (find_visibility times altitudes)
        (maskSelect altitudes (visibility_mask altitudes))
      = find_visibility times altitudes := by
  have hmask : visibility_mask (maskSelect altitudes (visibility_mask altitudes))
      = (maskSelect altitudes (visibility_mask altitudes)).map fun _ => true := by
    unfold visibility_mask
    apply List.map_congr_left
    intro a ha
    exact mem_maskSelect_self
      (fun a => decide (MIN_ALTITUDE ≤ a) && decide (a ≤ MAX_ALTITUDE)) altitudes a ha
  unfold find_visibility
  rw [hmask]
  exact maskSelect_all_true _ _
    (maskSelect_length_congr times altitudes (visibility_mask altitudes) h)

/-- C4 witness: idempotence at concrete data. -/
theorem find_visibility_idempotent_witness :
    find_visibility (find_visibility demoRawTimes demoAltitudes)
        (maskSelect demoAltitudes (visibility_mask demoAltitudes))
      = find_visibility demoRawTimes demoAltitudes :=
  find_visibility_idempotent demoRawTimes demoAltitudes (by decide)

/-- Observation: `clean_time_column` either aborts with InvalidInput or returns exactly the
cleaned survivor sequence. -/
theorem clean_time_column_cases (col : List (Option String)) :
    clean_time_column col = .error Err.invalidInput
    ∨ clean_time_column col = .ok (validTimes col) := by
  unfold clean_time_column
  dsimp only
  by_cases h1 : (validTimes col).isEmpty = true
  · rw [if_pos h1]
    exact Or.inl rfl
  · rw [if_neg h1]
    by_cases h2 : (validTimes col).all isoValid = true
    · rw [if_pos h2]
      exact Or.inr rfl
    · rw [if_neg h2]
      exact Or.inl rfl

/-- C5: the Time Normalizer drops missing cells, coerces survivors to text,
strips surrounding whitespace, and drops resulting empties, in that order (the
survivor sequence is exactly the stripped non-empty entries, in original order);
the cleaned sequence contains no missing, empty, or whitespace-only value, and
zero survivors makes the operation fail with the InvalidInput kind. -/
theorem clean_time_column_contract (col : List (Option String)) :
    (clean_time_column col = .error Err.invalidInput
        ∨ clean_time_column col = .ok (validTimes col))
    ∧ List.Sublist (validTimes col) ((col.filterMap id).map strip)
    ∧ ((validTimes col).all fun s =>
          (!(s == "")) && (strip s == s) && (!(s.data.all Char.isWhitespace))) = true
    ∧ (validTimes col ≠ [] ∨ clean_time_column col = .error Err.invalidInput) := by
  refine ⟨clean_time_column_cases col, List.filter_sublist _, ?_, ?_⟩
  · rw [List.all_eq_true]
    intro s hs
    obtain ⟨⟨o, _, hso⟩, hne⟩ := mem_validTimes col s hs
    have hidem : strip s = s := by
      rw [← hso]
      exact strip_idem o
    have hnws : s.data.all Char.isWhitespace = false := by
      by_contra hws
      rw [Bool.not_eq_false, List.all_eq_true] at hws
      have hnil : stripChars s.data = [] := stripChars_of_all_ws s.data hws
      have hempty : strip s = "" := by
        show (⟨stripChars s.data⟩ : String) = ""
        rw [hnil]
      exact hne (hidem.symm.trans hempty)
    simp [hne, hidem, hnws]
  · by_cases hnil : validTimes col = []
    · exact Or.inr (clean_time_column_error_of_nil col hnil)
    · exact Or.inl hnil

/-- A concrete table whose only timestamp fails calendar parsing (the
repository's own `test_invalid_input` fixture). -/
def badTable : Table :=
  [⟨some "invalid_time", 87958/1000, -39063/1000, 7067917/1000⟩]

/-- C6: a table containing a (surviving) timestamp string that cannot be
parsed under the fixed calendar format makes the Time Normalizer fail the whole
operation with the InvalidInput kind, and the run aborts before the coordinate
transform step is ever reached. -/
theorem unparsable_timestamp_aborts (f : Coord → String → ℚ × ℚ) (t : Table)
    (s : String) (hmem : some s ∈ timesOf t) (hne : strip s ≠ "")
    (hbad : isoValid (strip s) = false) :
    clean_time_column (timesOf t) = .error Err.invalidInput
    ∧ (mainRun f (.ok t)).res = .error Err.invalidInput
    ∧ Step.convert ∉ (mainRun f (.ok t)).trace := by
  have hmem' : strip s ∈ validTimes (timesOf t) := by
    unfold validTimes
    rw [List.mem_filter]
    refine ⟨List.mem_map_of_mem strip ?_, by simpa using hne⟩
    rw [List.mem_filterMap]
    exact ⟨some s, hmem, rfl⟩
  have hclean := clean_time_column_error_of_bad (timesOf t) (strip s) hmem' hbad
  refine ⟨hclean, ?_, ?_⟩
  · simp [mainRun, hclean]
  · simp [mainRun, hclean]

/-- C6 witness: the `'invalid_time'` scenario at the test fixture. -/
theorem unparsable_timestamp_aborts_witness :
    clean_time_column (timesOf badTable) = .error Err.invalidInput
    ∧ (mainRun demoTransform (.ok badTable)).res = .error Err.invalidInput
    ∧ Step.convert ∉ (mainRun demoTransform (.ok badTable)).trace :=
  unparsable_timestamp_aborts demoTransform badTable "invalid_time"
    (by decide) (by decide) (by decide)

/-- A fully valid two-row table (the repository's unit-test fixture). -/
def validTable : Table :=
  [⟨some "2024-09-11 00:00:00.000", 87958/1000, -39063/1000, 7067917/1000⟩,
   ⟨some "2024-09-11 00:01:00.000", 87126/1000, -35471/1000, 7067734/1000⟩]

/-- A transform that never reaches the visibility band (altitude 0°). -/
def lowTransform : Coord → String → ℚ × ℚ := fun _ _ => (0, 0)

theorem cellValid_survives (c : Option String) (h : cellValid c = true) :
    cellSurvives c = true := by
  cases c with
  | none => simp [cellValid] at h
  | some s =>
    simp only [cellValid, Bool.and_eq_true] at h
    simpa [cellSurvives] using h.1

/-- C7: when every row survives cleaning and parses, and no altitude ever
enters the visibility band, the whole pipeline completes without error: the
filtered set is empty, every step (including the write) runs, and the output
file is just the header — an empty result, not an error. -/
theorem empty_result_is_ok (f : Coord → String → ℚ × ℚ) (t : Table)
    (hne : t ≠ []) (hall : (timesOf t).all cellValid = true)
    (hlow : ∀ c s, (f c s).1 < MIN_ALTITUDE) :
    (mainRun f (.ok t)).res = .ok []
    ∧ (mainRun f (.ok t)).trace = fullPipeline
    ∧ (mainRun f (.ok t)).written = some ["Visible Times"] := by
  have hsurv : (timesOf t).all cellSurvives = true := by
    rw [List.all_eq_true] at hall ⊢
    exact fun c hc => cellValid_survives c (hall c hc)
  have hlen : (validTimes (timesOf t)).length = (timesOf t).length :=
    (validTimes_length_eq_iff (timesOf t)).mpr hsurv
  have htlen : (timesOf t).length = t.length := by simp [timesOf]
  have hvne : validTimes (timesOf t) ≠ [] := by
    intro hcontra
    rw [hcontra] at hlen
    have : (timesOf t).length = 0 := hlen.symm
    rw [htlen] at this
    exact hne (List.length_eq_zero.mp this)
  have hviso : (validTimes (timesOf t)).all isoValid = true := by
    rw [List.all_eq_true]
    intro s hs
    obtain ⟨⟨o, ho, hso⟩, _⟩ := mem_validTimes (timesOf t) s hs
    rw [List.all_eq_true] at hall
    have := hall (some o) ho
    simp only [cellValid, Bool.and_eq_true] at this
    rw [← hso]
    exact this.2
  have hclean := clean_time_column_ok_of (timesOf t) hvne hviso
  have hclens : (coordsOf t).length = (validTimes (timesOf t)).length := by
    rw [hlen, htlen]
    simp [coordsOf]
  have hconv : convert_to_altaz f (coordsOf t) (validTimes (timesOf t))
      = .ok (((coordsOf t).zip (validTimes (timesOf t))).map fun p => (f p.1 p.2).1) := by
    unfold convert_to_altaz
    rw [if_pos hclens]
  have halts_len : (((coordsOf t).zip (validTimes (timesOf t))).map
      fun p => (f p.1 p.2).1).length = (timesOf t).length := by
    rw [List.length_map, List.length_zip, hclens.symm, Nat.min_self]
    rw [htlen]
    simp [coordsOf]
  have hvis : find_visibility (timesOf t)
      (((coordsOf t).zip (validTimes (timesOf t))).map fun p => (f p.1 p.2).1) = [] := by
    unfold find_visibility
    apply maskSelect_all_false
    intro b hb
    unfold visibility_mask at hb
    rw [List.mem_map] at hb
    obtain ⟨a, ha, rfl⟩ := hb
    rw [List.mem_map] at ha
    obtain ⟨p, _, rfl⟩ := ha
    have hlt := hlow p.1 p.2
    simp [decide_eq_false (not_le.mpr hlt)]
  refine ⟨?_, ?_, ?_⟩ <;>
    simp [mainRun, hclean, hconv, halts_len, hvis, write_to_file]

/-- C7 witness: the valid two-row fixture with a transform pinned at 0°
altitude runs to completion and writes only the header. -/
theorem empty_result_is_ok_witness :
    (mainRun lowTransform (.ok validTable)).res = .ok []
    ∧ (mainRun lowTransform (.ok validTable)).trace = fullPipeline
    ∧ (mainRun lowTransform (.ok validTable)).written = some ["Visible Times"] :=
  empty_result_is_ok lowTransform validTable (List.cons_ne_nil _ _) (by decide)
    (fun c s => by norm_num [lowTransform, MIN_ALTITUDE])

/-- C8: the pipeline is the single linear sequence Load → Normalize →
Convert → Filter → Write: every run's trace is a prefix of that sequence (no
branching, no retry), the write step runs exactly when the run succeeds (a
failure at any step aborts before the next step), and the output file receives
exactly the successful run's full filtered result — otherwise nothing. -/
theorem pipeline_linear_no_partial_output (f : Coord → String → ℚ × ℚ)
    (input : Except Err Table) :
    (∃ k, (mainRun f input).trace = fullPipeline.take k)
    ∧ (resultOk (mainRun f input).res = true ↔ Step.write ∈ (mainRun f input).trace)
    ∧ (mainRun f input).written
        = Option.map write_to_file (resultValue (mainRun f input).res) := by
  cases input with
  | error e =>
    refine ⟨⟨1, rfl⟩, ?_, ?_⟩ <;> simp [mainRun, resultOk, resultValue, fullPipeline]
  | ok t =>
    cases hclean : clean_time_column (timesOf t) with
    | error e =>
      refine ⟨⟨2, ?_⟩, ?_, ?_⟩ <;>
        simp [mainRun, hclean, resultOk, resultValue, fullPipeline]
    | ok times =>
      cases hconv : convert_to_altaz f (coordsOf t) times with
      | error e =>
        refine ⟨⟨3, ?_⟩, ?_, ?_⟩ <;>
          simp [mainRun, hclean, hconv, resultOk, resultValue, fullPipeline]
      | ok alts =>
        by_cases hlen : alts.length = (timesOf t).length
        · refine ⟨⟨5, ?_⟩, ?_, ?_⟩ <;>
            simp [mainRun, hclean, hconv, hlen, resultOk, resultValue, fullPipeline]
        · refine ⟨⟨4, ?_⟩, ?_, ?_⟩ <;>
            simp [mainRun, hclean, hconv, hlen, resultOk, resultValue, fullPipeline]

/-- C9 (amended): on success the output file is the `Visible Times` header
line followed by exactly one selected timestamp per line — each rendered
verbatim in the input's raw (pre-cleaning) textual form, with no index
column — and the selected cells form an order-preserving subsequence of the
raw `Time (iso)` column (ascending original-row order). -/
theorem output_lines_raw_ordered (f : Coord → String → ℚ × ℚ) (t : Table)
    (vis : List (Option String)) (h : (mainRun f (.ok t)).res = .ok vis) :
    (mainRun f (.ok t)).written = some ("Visible Times" :: vis.map renderCell)
    ∧ List.Sublist vis (timesOf t) := by
  cases hclean : clean_time_column (timesOf t) with
  | error e => simp [mainRun, hclean] at h
  | ok times =>
    cases hconv : convert_to_altaz f (coordsOf t) times with
    | error e => simp [mainRun, hclean, hconv] at h
    | ok alts =>
      by_cases hlen : alts.length = (timesOf t).length
      · have hv : vis = find_visibility (timesOf t) alts := by
          simp only [mainRun, hclean, hconv, hlen, if_pos] at h
          exact (Except.ok.inj h).symm
        subst hv
        refine ⟨?_, maskSelect_sublist _ _⟩
        simp [mainRun, hclean, hconv, hlen, write_to_file, find_visibility]
      · simp [mainRun, hclean, hconv, hlen] at h

/-- C9 witness: a successful run over the valid fixture writes the header
plus the two selected timestamps in original order. -/
theorem output_lines_raw_ordered_witness :
    (mainRun demoTransform (.ok validTable)).written
        = some ("Visible Times" :: (timesOf validTable).map renderCell)
    ∧ List.Sublist (timesOf validTable) (timesOf validTable) :=
  output_lines_raw_ordered demoTransform validTable (timesOf validTable) (by rfl)

/-- A one-row table whose raw timestamp carries a leading space: it survives
cleaning (stripped) but the raw cell is what gets written. -/
def paddedTable : Table :=
  [⟨some " 2024-09-11 00:00:00.000", 87958/1000, -39063/1000, 7067917/1000⟩]

/-- C9 counterexample: with a leading-space timestamp the run succeeds and
writes the raw cell verbatim, which differs from the post-cleaning (stripped)
textual form the claim requires. -/
theorem output_line_not_post_cleaning :
    (mainRun demoTransform (.ok paddedTable)).written
        = some ["Visible Times", " 2024-09-11 00:00:00.000"]
    ∧ clean_time_column (timesOf paddedTable) = .ok ["2024-09-11 00:00:00.000"]
    ∧ (" 2024-09-11 00:00:00.000" : String) ≠ "2024-09-11 00:00:00.000" :=
  ⟨rfl, rfl, by decide⟩

/-- C10 (amended): coordinates are built from every row of the table while
observation instants come only from the surviving rows, so the parallel arrays
mismatch exactly when cleaning drops a row, and per-row 1:1 correspondence
holds precisely under the no-drop precondition. -/
theorem row_correspondence_requires_no_drops (t : Table) :
    (coordsOf t).length = t.length
    ∧ (timesOf t).length = t.length
    ∧ (validTimes (timesOf t)).length ≤ t.length
    ∧ ((validTimes (timesOf t)).length = t.length
        ↔ (timesOf t).all cellSurvives = true)
    ∧ (clean_time_column (timesOf t) = .error Err.invalidInput
        ∨ clean_time_column (timesOf t) = .ok (validTimes (timesOf t))) := by
  have htlen : (timesOf t).length = t.length := by simp [timesOf]
  refine ⟨by simp [coordsOf], htlen, ?_, ?_, clean_time_column_cases _⟩
  · rw [← htlen]
    exact validTimes_length_le (timesOf t)
  · rw [← htlen]
    exact validTimes_length_eq_iff (timesOf t)

/-- A table where the second row's timestamp is missing: cleaning drops it. -/
def dropTable : Table :=
  [⟨some "2024-09-11 00:00:00.000", 1, 2, 3⟩, ⟨none, 4, 5, 6⟩]

/-- C10 counterexample to the mask-length clause: with one surviving row
out of two, the single instant broadcasts across both coordinate rows, so the
mask has length 2 (the altitude-array length), not 1 (the survivor count) —
and the run even re-includes the dropped NaN row in its output. -/
theorem mask_length_not_survivor_count :
    (validTimes (timesOf dropTable)).length = 1
    ∧ convert_to_altaz demoTransform (coordsOf dropTable)
        (validTimes (timesOf dropTable)) = .ok [50, 50]
    ∧ (visibility_mask [50, 50]).length = 2
    ∧ (mainRun demoTransform (.ok dropTable)).res
        = .ok [some "2024-09-11 00:00:00.000", none] :=
  ⟨rfl, rfl, rfl, rfl⟩

end SatVis
